import Mathlib

/-!
Verification of the gameplay simulation core of a tower-defense game
(plants-vs-zombies). The definitions below are a shallow embedding of the
JavaScript source: `GridSystem`, `SunSystem`, `CombatSystem`, `WaveManager`
and the `Time` class. World coordinates and wall-clock times are modelled
as rationals (exact arithmetic over the source's decimal constants),
counters as integers or naturals, and each stateful method as an explicit
state-passing function. Theorems at the end of the file settle the frozen
claims about this code.
-/

namespace PvZ

/-! ### Grid configuration (`GAME_CONFIG.GRID` in Constants.js) -/

def gridRows : ℤ := 5
def gridCols : ℤ := 9
def cellSize : ℚ := 6/5      -- CELL_SIZE: 1.2
def offsetX : ℚ := -27/5     -- OFFSET_X: -5.4
def offsetZ : ℚ := -12/5     -- OFFSET_Z: -2.4

/-! ### GridSystem (src/systems/GridSystem.js)

The grid is `5 × 9` cells; each cell holds an `occupied` flag and a weak
reference to the occupying plant entity (modelled by an entity id).
`grid[row][col]` is only ever accessed behind `isValidCell`, so we model
the backing array as a total function from integer coordinates to cells. -/

/-- One grid cell: `{ occupied: false, entity: null }` in `initializeGrid`. -/
structure Cell where
  occupied : Bool
  entity : Option ℕ
  deriving DecidableEq, Repr

/-- The grid's backing store `this.grid`. -/
def Grid := ℤ → ℤ → Cell

/-- The freshly initialized grid: every cell `{ occupied: false, entity: null }`. -/
def initialGrid : Grid := fun _ _ => ⟨false, none⟩

/-- Pointwise update of a single cell of the backing store. -/
def setCell (g : Grid) (row col : ℤ) (c : Cell) : Grid :=
  fun r k => if r = row ∧ k = col then c else g r k

/-- `GridSystem.gridToWorld(row, col)`: the world-space center of a cell.
Returns the pair `(x, z)` of the produced vector (its `y` is always 0). -/
def gridToWorld (row col : ℤ) : ℚ × ℚ :=
  (offsetX + col * cellSize + cellSize / 2,
   offsetZ + row * cellSize + cellSize / 2)

/-- `GridSystem.worldToGrid(worldPos)`: floor-divide the offset world
position by the cell size; returns `(row, col)`.  `Math.floor` on a float
is `Int.floor` on the exact rational. -/
def worldToGrid (x z : ℚ) : ℤ × ℤ :=
  (⌊(z - offsetZ) / cellSize⌋, ⌊(x - offsetX) / cellSize⌋)

/-- `GridSystem.isValidCell(row, col)`. -/
def isValidCell (row col : ℤ) : Bool :=
  decide (0 ≤ row) && decide (row < gridRows) &&
  decide (0 ≤ col) && decide (col < gridCols)

/-- `GridSystem.isCellEmpty(row, col)`: an invalid cell reports non-empty. -/
def isCellEmpty (g : Grid) (row col : ℤ) : Bool :=
  if isValidCell row col then !(g row col).occupied else false

/-- `GridSystem.placePlant(row, col, entity)`: fails on an invalid or
occupied cell, otherwise records occupancy and the entity reference.
(The mesh positioning it also performs is presentation-only.) -/
def placePlant (g : Grid) (row col : ℤ) (entity : ℕ) : Bool × Grid :=
  if !(isValidCell row col) || !(isCellEmpty g row col) then
    (false, g)
  else
    (true, setCell g row col ⟨true, some entity⟩)

/-- `GridSystem.removePlant(row, col)`: `null` on an invalid cell,
otherwise returns the stored entity reference and clears the cell. -/
def removePlant (g : Grid) (row col : ℤ) : Option ℕ × Grid :=
  if !(isValidCell row col) then
    (none, g)
  else
    ((g row col).entity, setCell g row col ⟨false, none⟩)

/-- `GridSystem.getPlantAt(row, col)`. -/
def getPlantAt (g : Grid) (row col : ℤ) : Option ℕ :=
  if !(isValidCell row col) then none else (g row col).entity

/-! ### SunSystem (the sun resource ledger)

`this.sunAmount` is the single spendable counter. JavaScript numbers are
modelled as integers (every amount in the configuration is an integer). -/

/-- The ledger state: `this.sunAmount`. -/
structure SunState where
  sunAmount : ℤ
  deriving DecidableEq, Repr

/-- `SunSystem.addSun(amount)`: unconditional credit.
(The `onSunChange` notification it fires is presentation-only.) -/
def addSun (s : SunState) (amount : ℤ) : SunState :=
  ⟨s.sunAmount + amount⟩

/-- `SunSystem.spendSun(amount)`: debit that succeeds and decrements iff
`sunAmount >= amount`, else returns `false` leaving the ledger unchanged. -/
def spendSun (s : SunState) (amount : ℤ) : Bool × SunState :=
  if s.sunAmount ≥ amount then (true, ⟨s.sunAmount - amount⟩) else (false, s)

/-- `SunSystem.canAfford(amount)`: `this.sunAmount >= amount`. -/
def canAfford (s : SunState) (amount : ℤ) : Bool :=
  decide (s.sunAmount ≥ amount)

/-- A credit (`addSun`) or debit (`spendSun`) operation on the ledger. -/
inductive SunOp where
  | credit (amount : ℤ)
  | debit (amount : ℤ)
  deriving DecidableEq, Repr

/-- Run a sequence of ledger operations (a debit's boolean result is
observed by the caller but does not affect the ledger trace). -/
def runSunOps (s : SunState) : List SunOp → SunState
  | [] => s
  | SunOp.credit a :: rest => runSunOps (addSun s a) rest
  | SunOp.debit a :: rest => runSunOps (spendSun s a).2 rest

/-- Credits are issued with nonnegative amounts (sun values from the
configuration); debits may carry any amount. -/
def sunOpWellFormed : SunOp → Prop
  | SunOp.credit a => 0 ≤ a
  | SunOp.debit _ => True

instance : DecidablePred sunOpWellFormed := fun op => by
  cases op <;> simp [sunOpWellFormed] <;> infer_instance

/-! ### CombatSystem: damage and death processing (zombie path)

`damageZombie` subtracts damage and, on `health.current <= 0`, calls
`killZombie`.  `killZombie` marks the behavior state `'die'` and then
destroys the entity — immediately when no animation system / mesh is
wired, but via the death-animation completion callback when one is
(`animationSystem.animateDeath(mesh, () => { zombie.destroy(); ... })`),
in which case the `active` flag stays set until the animation ends.
Both call sites of `damageZombie` (`updateProjectiles` and `explode`)
guard with `if (!zombie.active) continue`. -/

/-- The zombie entity fields that the damage path touches: the ECS
`active` flag, the `Health` component, and `Zombie.state`. -/
structure ZombieEnt where
  active : Bool
  healthCurrent : ℤ
  healthMax : ℤ
  state : String
  deriving DecidableEq, Repr

/-- `CombatSystem.killZombie(zombie)`: set the state to `'die'`; destroy
the entity now only if destruction is not deferred to a death-animation
callback (`hasDeathAnimation = animationSystem && zombie.mesh`, which is
always true in the assembled game). -/
def killZombie (z : ZombieEnt) (hasDeathAnimation : Bool) : ZombieEnt :=
  let z := { z with state := "die" }
  if hasDeathAnimation then z else { z with active := false }

/-- `CombatSystem.damageZombie(zombie, damage)`: subtract the damage and
run death processing when `current <= 0`.  The boolean records whether
`killZombie` ran on this call. -/
def damageZombie (z : ZombieEnt) (damage : ℤ) (hasDeathAnimation : Bool) :
    ZombieEnt × Bool :=
  let z := { z with healthCurrent := z.healthCurrent - damage }
  if z.healthCurrent ≤ 0 then (killZombie z hasDeathAnimation, true) else (z, false)

/-- One damage event as delivered by `updateProjectiles` / `explode`:
the caller checks the entity's `active` flag before applying damage. -/
def hitZombie (z : ZombieEnt) (damage : ℤ) (hasDeathAnimation : Bool) :
    ZombieEnt × Bool :=
  if z.active then damageZombie z damage hasDeathAnimation else (z, false)

/-- Deliver a sequence of damage events, counting how many times death
processing (`killZombie`) ran. -/
def runHits (z : ZombieEnt) (hasDeathAnimation : Bool) :
    List ℤ → ZombieEnt × ℕ
  | [] => (z, 0)
  | d :: rest =>
    let (z1, killed) := hitZombie z d hasDeathAnimation
    let (z2, n) := runHits z1 hasDeathAnimation rest
    (z2, (if killed then 1 else 0) + n)

/-! ### CombatSystem: ranged fire (`updateShooters` / `fireProjectile`)

For one plant with a `Shooter` component: find a target in the plant's
lane, and if the cooldown has elapsed, fire.  `fireProjectile` draws a
mesh from the fixed pool (`getProjectileFromPool`, a linear scan for a
free handle) and silently returns without creating a projectile entity
when the pool is exhausted.  `shooter.lastShot` is reset by
`updateShooters` after the `fireProjectile` call, on every fire attempt. -/

/-- What shooter targeting reads of a zombie: the `active` flag, the
assigned `Zombie.row`, and the mesh world x. -/
structure ZombieView where
  active : Bool
  row : ℤ
  x : ℚ
  deriving DecidableEq, Repr

/-- The `Shooter` component. `lastShot` is in milliseconds. -/
structure Shooter where
  fireRate : ℚ
  damage : ℤ
  lastShot : ℚ
  deriving DecidableEq, Repr

/-- A projectile entity as created by `fireProjectile`: spawned at the
plant's muzzle offset `(x + 0.4, z)` carrying the shooter's damage. -/
structure Projectile where
  x : ℚ
  z : ℚ
  damage : ℤ
  deriving DecidableEq, Repr

/-- `zombies.some(z => z.active && z.row === row && z.x > plant.x)`:
the target test in `updateShooters`. -/
def hasTarget (zombies : List ZombieView) (row : ℤ) (plantX : ℚ) : Bool :=
  zombies.any fun z => z.active && decide (z.row = row) && decide (plantX < z.x)

/-- `CombatSystem.fireProjectile(plant, shooter)` with the pool modelled
by its count of free handles: no free handle means no projectile entity
is created. -/
def fireProjectile (poolFree : ℕ) (plantX plantZ : ℚ) (damage : ℤ) :
    Option Projectile × ℕ :=
  if poolFree = 0 then (none, poolFree)
  else (some ⟨plantX + 2/5, plantZ, damage⟩, poolFree - 1)

/-- The body of `CombatSystem.updateShooters` for one plant: fire iff a
target exists in the lane and `elapsedTime*1000 - lastShot >= fireRate`,
resetting `lastShot` to `elapsedTime*1000` on the attempt.  Returns the
updated shooter, the created projectile (if any), and the pool. -/
def updateShooterPlant (sh : Shooter) (plantX plantZ : ℚ) (row : ℤ)
    (zombies : List ZombieView) (elapsedTime : ℚ) (poolFree : ℕ) :
    Shooter × Option Projectile × ℕ :=
  if hasTarget zombies row plantX then
    if elapsedTime * 1000 - sh.lastShot ≥ sh.fireRate then
      let (p, pool1) := fireProjectile poolFree plantX plantZ sh.damage
      ({ sh with lastShot := elapsedTime * 1000 }, p, pool1)
    else (sh, none, poolFree)
  else (sh, none, poolFree)

/-! ### WaveManager (src/systems/WaveManager.js)

Wave descriptors come from the static `GAME_CONFIG.WAVES` table.  All
times are in milliseconds; wall-clock readings (`performance.now()`) are
rationals. -/

/-- One attacker group of a wave: `{ type, count, interval }`. -/
structure ZombieGroup where
  type : String
  count : ℕ
  interval : ℤ
  deriving DecidableEq, Repr

/-- One wave table entry: `{ zombies: [...], delay }`. -/
structure WaveData where
  zombies : List ZombieGroup
  delay : ℤ
  deriving DecidableEq, Repr

/-- One entry of `this.spawnTimers`: `{ type, time, spawned }`. -/
structure SpawnTimer where
  type : String
  time : ℤ
  spawned : Bool
  deriving DecidableEq, Repr

/-- The comparator `(a, b) => a.time - b.time` used to sort the schedule. -/
def timerLe (a b : SpawnTimer) : Prop := a.time ≤ b.time

instance : DecidableRel timerLe := fun a b => by
  unfold timerLe; infer_instance

instance : IsTotal SpawnTimer timerLe := ⟨fun a b => le_total a.time b.time⟩

instance : IsTrans SpawnTimer timerLe := ⟨fun _ _ _ h1 h2 => le_trans h1 h2⟩

/-- The mutable wave state of `WaveManager`. -/
structure WaveState where
  currentWave : ℕ
  waveStartTime : ℤ
  waveActive : Bool
  spawnTimers : List SpawnTimer
  zombiesSpawned : ℕ
  totalZombiesInWave : ℕ
  allWavesComplete : Bool
  deriving DecidableEq, Repr

/-- The state set up by the `WaveManager` constructor / `reset()`. -/
def initialWaveState : WaveState :=
  ⟨0, 0, false, [], 0, 0, false⟩

/-- The flat expansion of one wave's groups into schedule entries:
for each group, `count` entries at times `delay + i*interval`. -/
def expandWave (wd : WaveData) : List SpawnTimer :=
  wd.zombies.flatMap fun g =>
    (List.range g.count).map fun i => ⟨g.type, wd.delay + i * g.interval, false⟩

/-- `WaveManager.startWave(waveNumber = null)` against a wave table.
`now` is the `performance.now()` reading stored into `waveStartTime`.
With no argument the wave counter advances by one; past the end of the
table the all-complete flag is set and `false` returned without building
a schedule; otherwise the flat schedule is built, sorted by due time,
and the wave marked active. -/
def startWave (table : List WaveData) (waveNumber : Option ℕ) (now : ℤ)
    (s : WaveState) : Bool × WaveState :=
  let cw := match waveNumber with
    | some n => n
    | none => s.currentWave + 1
  if cw > table.length then
    (false, { s with currentWave := cw, allWavesComplete := true })
  else
    let waveData := table.getD (cw - 1) ⟨[], 0⟩
    let timers := expandWave waveData
    (true, { s with
      currentWave := cw
      waveActive := true
      waveStartTime := now
      zombiesSpawned := 0
      totalZombiesInWave := (waveData.zombies.map (·.count)).sum
      spawnTimers := timers.insertionSort timerLe })

/-- `WaveManager.update(deltaTime, elapsedTime)`.  Note that the body
ignores both arguments for scheduling and compares against the raw wall
clock: `const elapsed = performance.now() - this.waveStartTime`.  `now`
is that `performance.now()` reading.  Every not-yet-spawned entry whose
due time has passed spawns a zombie and is marked spawned. -/
def waveManagerUpdate (s : WaveState) (now : ℤ) : WaveState :=
  if !s.waveActive || s.allWavesComplete then s
  else
    let elapsed := now - s.waveStartTime
    let due : SpawnTimer → Bool := fun t => !t.spawned && decide (t.time ≤ elapsed)
    { s with
      spawnTimers := s.spawnTimers.map fun t =>
        if due t then { t with spawned := true } else t
      zombiesSpawned := s.zombiesSpawned + (s.spawnTimers.filter due).length }

/-- `WaveManager.isWaveComplete()`: with the wave active, true exactly
when all zombies are spawned and none of the world's zombie entities is
still active; on true the `waveActive` flag is cleared.  The world's
zombie list is passed in as the entity store's view. -/
def isWaveComplete (s : WaveState) (worldZombies : List ZombieEnt) :
    Bool × WaveState :=
  if !s.waveActive then (false, s)
  else
    let allSpawned := s.zombiesSpawned ≥ s.totalZombiesInWave
    let zombiesRemaining := (worldZombies.filter (·.active)).length
    if allSpawned && decide (zombiesRemaining = 0) then
      (true, { s with waveActive := false })
    else (false, s)

/-! ### Time (src/engine/Time.js)

`tick()` reads the wall clock, clamps the raw delta to `MAX_DELTA` and
scales it by `timeScale`; `elapsedTime` accumulates the scaled delta, so
it is the time source that respects pausing.  All times in seconds here
(`performance.now()` readings divided by 1000 as in the source). -/

/-- `GAME_CONFIG.TIME.MAX_DELTA`. -/
def maxDelta : ℚ := 1/10

/-- The fields of the `Time` class that `tick` / `pause` touch. -/
structure TimeState where
  lastTime : ℚ
  deltaTime : ℚ
  accumulator : ℚ
  timeScale : ℚ
  elapsedTime : ℚ
  frameCount : ℕ
  deriving DecidableEq, Repr

/-- `Time.tick()` at wall-clock reading `now` (milliseconds). -/
def timeTick (t : TimeState) (now : ℚ) : TimeState :=
  let rawDelta := min ((now - t.lastTime) / 1000) maxDelta
  let dt := rawDelta * t.timeScale
  { t with
    lastTime := now
    deltaTime := dt
    accumulator := t.accumulator + dt
    elapsedTime := t.elapsedTime + dt
    frameCount := t.frameCount + 1 }

/-- `Time.pause()`: sets the scale factor to zero. -/
def timePause (t : TimeState) : TimeState :=
  { t with timeScale := 0 }

/-- A run of consecutive `tick()` calls at the given wall-clock readings. -/
def timeTicks (t : TimeState) (nows : List ℚ) : TimeState :=
  nows.foldl timeTick t

/-- `SunSystem.update` natural-sun / sunflower production trigger:
`elapsedTime * 1000 - lastProduced >= interval` (the same comparison
shape governs `NATURAL_SPAWN_INTERVAL` and `SunProducer.interval`). -/
def sunProductionDue (lastProduced interval elapsedTime : ℚ) : Bool :=
  decide (elapsedTime * 1000 - lastProduced ≥ interval)

/-- The wave table of the specification's scenario: a single wave with
one group `{ type: basic, count: 3, interval: 1000 }` and `delay: 2000`
(times in milliseconds). -/
def demoWaveTable : List WaveData :=
  [⟨[⟨"basic", 3, 1000⟩], 2000⟩]

/-! ## Theorems -/

/-! ### Resource ledger -/

lemma runSunOps_nonneg (ops : List SunOp) :
    ∀ s : SunState, 0 ≤ s.sunAmount → (∀ op ∈ ops, sunOpWellFormed op) →
    0 ≤ (runSunOps s ops).sunAmount := by
  induction ops with
  | nil => intro s h _; simpa [runSunOps] using h
  | cons op rest ih =>
    intro s h hwf
    cases op with
    | credit a =>
      have ha : 0 ≤ a := hwf _ (List.mem_cons_self _ _)
      refine ih _ ?_ (fun op hop => hwf op (List.mem_cons_of_mem _ hop))
      simp only [addSun]
      omega
    | debit a =>
      refine ih _ ?_ (fun op hop => hwf op (List.mem_cons_of_mem _ hop))
      by_cases hc : s.sunAmount ≥ a
      · simp only [spendSun, if_pos hc]
        omega
      · simpa only [spendSun, if_neg hc] using h

/-- C2: starting from a nonnegative ledger, no sequence of credits
(with nonnegative amounts) and debits ever drives the sun ledger
negative; a debit succeeds and decrements exactly when the current
amount covers it, and a failed debit leaves the ledger unchanged.
Concretely: from 150, `spendSun 100` succeeds leaving 50, a second
`spendSun 100` fails leaving 50, and `addSun 50` yields 100. -/
theorem sun_ledger_never_negative :
    (∀ (s : SunState) (ops : List SunOp), 0 ≤ s.sunAmount →
      (∀ op ∈ ops, sunOpWellFormed op) → 0 ≤ (runSunOps s ops).sunAmount)
    ∧ (∀ (s : SunState) (a : ℤ),
        (a ≤ s.sunAmount → spendSun s a = (true, ⟨s.sunAmount - a⟩))
        ∧ (s.sunAmount < a → spendSun s a = (false, s)))
    ∧ spendSun ⟨150⟩ 100 = (true, ⟨50⟩)
    ∧ spendSun ⟨50⟩ 100 = (false, ⟨50⟩)
    ∧ addSun ⟨50⟩ 50 = ⟨100⟩ := by
  refine ⟨fun s ops h hwf => runSunOps_nonneg ops s h hwf, fun s a => ⟨?_, ?_⟩,
    by decide, by decide, by decide⟩
  · intro h
    simp [spendSun, ge_iff_le, h]
  · intro h
    simp [spendSun, not_le.mpr h]

/-- Witness for `sun_ledger_never_negative`: the scenario trace
`[debit 100, debit 100, credit 50]` from 150 stays nonnegative. -/
theorem sun_ledger_never_negative_witness :
    0 ≤ (SunState.mk 150).sunAmount
    ∧ (∀ op ∈ [SunOp.debit 100, SunOp.debit 100, SunOp.credit 50], sunOpWellFormed op)
    ∧ 0 ≤ (runSunOps ⟨150⟩ [SunOp.debit 100, SunOp.debit 100, SunOp.credit 50]).sunAmount :=
  ⟨by decide, by decide,
    sun_ledger_never_negative.1 ⟨150⟩ _ (by decide) (by decide)⟩

/-- C9: `canAfford` returns exactly the success bit that `spendSun`
would return on the same state — both are the comparison
`sunAmount >= amount` — and `canAfford` is a pure predicate (it maps
the state to a `Bool` without producing a new state). -/
theorem canAfford_agrees_with_spendSun :
    ∀ (s : SunState) (a : ℤ),
      canAfford s a = (spendSun s a).1
      ∧ (canAfford s a = true ↔ a ≤ s.sunAmount) := by
  intro s a
  constructor
  · by_cases h : s.sunAmount ≥ a
    · simp [canAfford, spendSun, h]
    · simp [canAfford, spendSun, h]
  · simp [canAfford, ge_iff_le]

/-! ### Grid placement -/

/-- C5: `placePlant` on an invalid or non-empty cell fails and returns
the grid unchanged (the original occupant untouched); on a valid empty
cell it succeeds, and an immediately following `removePlant` returns
exactly the placed entity, after which the cell reports empty. -/
theorem place_release_roundtrip :
    ∀ (g : Grid) (row col : ℤ) (e : ℕ),
      (isValidCell row col = false → placePlant g row col e = (false, g))
      ∧ (isCellEmpty g row col = false → placePlant g row col e = (false, g))
      ∧ (isValidCell row col = true → isCellEmpty g row col = true →
          (placePlant g row col e).1 = true
          ∧ (removePlant (placePlant g row col e).2 row col).1 = some e
          ∧ isCellEmpty (removePlant (placePlant g row col e).2 row col).2 row col
              = true) := by
  intro g row col e
  refine ⟨fun hv => ?_, fun he => ?_, fun hv he => ?_⟩
  · simp [placePlant, hv]
  · simp [placePlant, he]
  · have hplace : placePlant g row col e = (true, setCell g row col ⟨true, some e⟩) := by
      simp [placePlant, hv, he]
    have hcell : setCell g row col ⟨true, some e⟩ row col = ⟨true, some e⟩ := by
      simp [setCell]
    refine ⟨by simp [hplace], ?_, ?_⟩
    · simp [hplace, removePlant, hv, hcell]
    · simp [removePlant, hv, hplace, isCellEmpty, setCell]

/-- Witness for `place_release_roundtrip`: placing entity 7 at the valid
empty cell (1, 2) of the fresh grid and releasing it. -/
theorem place_release_roundtrip_witness :
    isValidCell 1 2 = true
    ∧ isCellEmpty initialGrid 1 2 = true
    ∧ ((placePlant initialGrid 1 2 7).1 = true
        ∧ (removePlant (placePlant initialGrid 1 2 7).2 1 2).1 = some 7
        ∧ isCellEmpty (removePlant (placePlant initialGrid 1 2 7).2 1 2).2 1 2
            = true) :=
  ⟨by decide, by decide,
    (place_release_roundtrip initialGrid 1 2 7).2.2 (by decide) (by decide)⟩

/-- C10: on any out-of-bounds cell the grid operations are total and
reject: `isCellEmpty` reports `false` (not an error), while
`removePlant` and `getPlantAt` return `null`, the grid left unchanged. -/
theorem invalid_cell_operations_reject :
    ∀ (g : Grid) (row col : ℤ), isValidCell row col = false →
      isCellEmpty g row col = false
      ∧ removePlant g row col = (none, g)
      ∧ getPlantAt g row col = none := by
  intro g row col hv
  exact ⟨by simp [isCellEmpty, hv], by simp [removePlant, hv], by simp [getPlantAt, hv]⟩

/-- Witness for `invalid_cell_operations_reject` at row 5 (one past the
last row) of the fresh grid. -/
theorem invalid_cell_operations_reject_witness :
    isValidCell 5 0 = false
    ∧ (isCellEmpty initialGrid 5 0 = false
        ∧ removePlant initialGrid 5 0 = (none, initialGrid)
        ∧ getPlantAt initialGrid 5 0 = none) :=
  ⟨by decide, invalid_cell_operations_reject initialGrid 5 0 (by decide)⟩

/-! ### Grid coordinate round trip -/

lemma cellSize_pos : (0 : ℚ) < cellSize := by norm_num [cellSize]

lemma floor_cell_coordinate (c : ℤ) (off x : ℚ)
    (h1 : off + c * cellSize ≤ x) (h2 : x < off + (c + 1) * cellSize) :
    ⌊(x - off) / cellSize⌋ = c := by
  rw [Int.floor_eq_iff]
  constructor
  · rw [le_div_iff₀ cellSize_pos]
    linarith
  · rw [div_lt_iff₀ cellSize_pos]
    linarith

/-- C6: for any world position lying inside the bounds of a valid grid
cell, `worldToGrid` recovers that cell and `gridToWorld` of the result
is the cell's center — the two maps are inverse up to cell-center
snapping. -/
theorem grid_world_roundtrip :
    ∀ (row col : ℤ) (x z : ℚ),
      isValidCell row col = true →
      offsetX + col * cellSize ≤ x → x < offsetX + (col + 1) * cellSize →
      offsetZ + row * cellSize ≤ z → z < offsetZ + (row + 1) * cellSize →
      worldToGrid x z = (row, col)
      ∧ gridToWorld (worldToGrid x z).1 (worldToGrid x z).2
          = (offsetX + col * cellSize + cellSize / 2,
             offsetZ + row * cellSize + cellSize / 2) := by
  intro row col x z _ hx1 hx2 hz1 hz2
  have hcol : ⌊(x - offsetX) / cellSize⌋ = col := floor_cell_coordinate col offsetX x hx1 hx2
  have hrow : ⌊(z - offsetZ) / cellSize⌋ = row := floor_cell_coordinate row offsetZ z hz1 hz2
  constructor
  · simp [worldToGrid, hcol, hrow]
  · simp [worldToGrid, gridToWorld, hcol, hrow]

/-- Witness for `grid_world_roundtrip`: the point `(x, z) = (0, 0)` lies
inside cell `(row, col) = (2, 4)` and round-trips to its center. -/
theorem grid_world_roundtrip_witness :
    isValidCell 2 4 = true
    ∧ offsetX + 4 * cellSize ≤ 0 ∧ (0 : ℚ) < offsetX + (4 + 1) * cellSize
    ∧ offsetZ + 2 * cellSize ≤ 0 ∧ (0 : ℚ) < offsetZ + (2 + 1) * cellSize
    ∧ (worldToGrid 0 0 = (2, 4)
        ∧ gridToWorld (worldToGrid 0 0).1 (worldToGrid 0 0).2
            = (offsetX + 4 * cellSize + cellSize / 2,
               offsetZ + 2 * cellSize + cellSize / 2)) :=
  ⟨by decide, by norm_num [offsetX, cellSize], by norm_num [offsetX, cellSize],
    by norm_num [offsetZ, cellSize], by norm_num [offsetZ, cellSize],
    grid_world_roundtrip 2 4 0 0 (by decide)
      (by norm_num [offsetX, cellSize]) (by norm_num [offsetX, cellSize])
      (by norm_num [offsetZ, cellSize]) (by norm_num [offsetZ, cellSize])⟩

/-! ### Damage and death processing -/

/-- C1 counterexample: in the game's actual configuration destruction is
deferred to the death-animation callback (`hasDeathAnimation = true`, as
`Game` always wires an `AnimationSystem` and every zombie has a mesh).
A zombie with 10 hit points takes two 10-damage hits: the first drives
`Health.current` to 0 and runs death processing, yet the entity is still
`active`, so the second hit is applied (health drops to −10) and death
processing runs a second time — refuting both "exactly once" and the
"further damage is a no-op" consequence of the active-flag check. -/
theorem death_processed_twice_counterexample :
    (runHits ⟨true, 10, 10, "walk"⟩ true [10]).1.active = true
    ∧ (runHits ⟨true, 10, 10, "walk"⟩ true [10, 10]).1.healthCurrent = -10
    ∧ (runHits ⟨true, 10, 10, "walk"⟩ true [10, 10]).2 = 2 := by
  decide

lemma runHits_inactive (hits : List ℤ) :
    ∀ (z : ZombieEnt) (anim : Bool), z.active = false →
    runHits z anim hits = (z, 0) := by
  induction hits with
  | nil => intro z anim _; rfl
  | cons d rest ih =>
    intro z anim h
    simp [runHits, hitZombie, h, ih z anim h]

/-- C1 (amended): in the source's immediate-destruction branch of
`killZombie` (taken when no animation system / mesh is wired), death
processing clears the `active` flag at once, so over any sequence of
damage events it runs at most once; a killing hit leaves the entity
inactive in state `'die'`, and any damage event on an inactive entity is
a no-op because the call sites check `active` before applying damage.
(With the animation system wired, destruction — and the clearing of
`active` — is deferred to the death-animation callback, and damage
delivered before that callback is re-applied, as the counterexample
shows.) -/
theorem death_processing_once_immediate_destroy :
    ∀ (z : ZombieEnt) (hits : List ℤ),
      (runHits z false hits).2 ≤ 1
      ∧ (∀ d : ℤ, z.active = true → z.healthCurrent - d ≤ 0 →
          hitZombie z d false
            = ({ z with healthCurrent := z.healthCurrent - d,
                        state := "die", active := false }, true))
      ∧ (∀ d : ℤ, z.active = false → hitZombie z d false = (z, false)) := by
  intro z hits
  refine ⟨?_, ?_, ?_⟩
  · induction hits generalizing z with
    | nil => simp [runHits]
    | cons d rest ih =>
      by_cases hz : z.active
      · by_cases hk : z.healthCurrent - d ≤ 0
        · have hdead : (hitZombie z d false).1.active = false := by
            simp [hitZombie, hz, damageZombie, hk, killZombie]
          have hkill : (hitZombie z d false).2 = true := by
            simp [hitZombie, hz, damageZombie, hk]
          simp only [runHits]
          rw [runHits_inactive rest _ false hdead]
          simp [hkill]
        · have hsurv : hitZombie z d false
              = ({ z with healthCurrent := z.healthCurrent - d }, false) := by
            simp [hitZombie, hz, damageZombie, hk]
          simp only [runHits, hsurv]
          simpa using ih { z with healthCurrent := z.healthCurrent - d }
      · have hz' : z.active = false := by simpa using hz
        rw [show runHits z false (d :: rest)
              = ((runHits z false (d :: rest)).1, (runHits z false (d :: rest)).2) from rfl]
        rw [runHits_inactive (d :: rest) z false hz']
        simp
  · intro d hz hk
    simp [hitZombie, hz, damageZombie, hk, killZombie]
  · intro d hz
    simp [hitZombie, hz]

/-- Witness for `death_processing_once_immediate_destroy`: a zombie with
10 hit points, immediate destruction, killed by a single 10-damage hit;
a subsequent hit on the now-inactive entity is a no-op. -/
theorem death_processing_once_immediate_destroy_witness :
    ((ZombieEnt.mk true 10 10 "walk").active = true
      ∧ (ZombieEnt.mk true 10 10 "walk").healthCurrent - 10 ≤ 0)
    ∧ (runHits ⟨true, 10, 10, "walk"⟩ false [10, 10]).2 ≤ 1
    ∧ hitZombie ⟨true, 10, 10, "walk"⟩ 10 false = (⟨false, 0, 10, "die"⟩, true)
    ∧ hitZombie ⟨false, 0, 10, "die"⟩ 10 false = (⟨false, 0, 10, "die"⟩, false) :=
  ⟨⟨by decide, by decide⟩,
    (death_processing_once_immediate_destroy ⟨true, 10, 10, "walk"⟩ [10, 10]).1,
    (death_processing_once_immediate_destroy ⟨true, 10, 10, "walk"⟩ []).2.1
      10 (by decide) (by decide),
    (death_processing_once_immediate_destroy ⟨false, 0, 10, "die"⟩ []).2.2
      10 (by decide)⟩

/-! ### Wave scheduling -/

/-- C3: `startWave` with no argument advances the wave counter by one;
past the end of the wave table it sets the all-complete flag and returns
failure without building a schedule; otherwise it succeeds, marks the
wave active, and installs a schedule sorted by due time that is a
permutation of the flat group expansion (each group contributing `count`
entries at times `delay + i * interval`).  For the scenario table
(`{type: basic, count: 3, interval: 1000}` with `delay: 2000`) the
schedule's due times are exactly 2000, 3000, 4000 ms: an update tick at
elapsed 1999 spawns nothing, 2000 spawns the first, 2999 no further one,
and 4000 completes all three. -/
theorem startWave_builds_sorted_schedule :
    (∀ (table : List WaveData) (now : ℤ) (s : WaveState),
      ((startWave table none now s).2.currentWave = s.currentWave + 1)
      ∧ (table.length < s.currentWave + 1 →
          startWave table none now s
            = (false, { s with currentWave := s.currentWave + 1,
                               allWavesComplete := true }))
      ∧ (s.currentWave + 1 ≤ table.length →
          (startWave table none now s).1 = true
          ∧ (startWave table none now s).2.waveActive = true
          ∧ List.Sorted timerLe (startWave table none now s).2.spawnTimers
          ∧ (startWave table none now s).2.spawnTimers.Perm
              (expandWave (table.getD s.currentWave ⟨[], 0⟩))))
    ∧ ((startWave demoWaveTable none 0 initialWaveState).2.spawnTimers.map (·.time)
        = [2000, 3000, 4000])
    ∧ (waveManagerUpdate (startWave demoWaveTable none 0 initialWaveState).2
        1999).zombiesSpawned = 0
    ∧ (waveManagerUpdate (startWave demoWaveTable none 0 initialWaveState).2
        2000).zombiesSpawned = 1
    ∧ (waveManagerUpdate (startWave demoWaveTable none 0 initialWaveState).2
        2999).zombiesSpawned = 1
    ∧ (waveManagerUpdate (startWave demoWaveTable none 0 initialWaveState).2
        4000).zombiesSpawned = 3 := by
  refine ⟨fun table now s => ⟨?_, ?_, ?_⟩, by decide, by decide, by decide,
    by decide, by decide⟩
  · by_cases h : s.currentWave + 1 > table.length
    · simp [startWave, h]
    · simp [startWave, h]
  · intro h
    simp [startWave, h]
  · intro h
    have h2 : ¬ (s.currentWave + 1 > table.length) := not_lt.mpr h
    refine ⟨by simp [startWave, h2], by simp [startWave, h2], ?_, ?_⟩
    · simp only [startWave]
      rw [if_neg h2]
      exact List.sorted_insertionSort timerLe _
    · simp only [startWave]
      rw [if_neg h2]
      simpa using List.perm_insertionSort timerLe
        (expandWave (table.getD s.currentWave ⟨[], 0⟩))

/-- Witness for `startWave_builds_sorted_schedule`: starting the first
wave of the scenario table from the initial state (wave 0 + 1 = 1 is
within the one-entry table). -/
theorem startWave_builds_sorted_schedule_witness :
    (initialWaveState.currentWave + 1 ≤ demoWaveTable.length)
    ∧ ((startWave demoWaveTable none 0 initialWaveState).1 = true
        ∧ (startWave demoWaveTable none 0 initialWaveState).2.waveActive = true
        ∧ List.Sorted timerLe
            (startWave demoWaveTable none 0 initialWaveState).2.spawnTimers
        ∧ (startWave demoWaveTable none 0 initialWaveState).2.spawnTimers.Perm
            (expandWave (demoWaveTable.getD initialWaveState.currentWave ⟨[], 0⟩))) :=
  ⟨by decide,
    ((startWave_builds_sorted_schedule.1 demoWaveTable 0 initialWaveState).2.2
      (by decide))⟩

lemma filter_length_eq_iff_all {α : Type} (p : α → Bool) (l : List α) :
    (l.filter p).length = l.length ↔ ∀ a ∈ l, p a = true := by
  constructor
  · intro h
    have hsub := List.filter_sublist (l := l) (p := p)
    have := hsub.eq_of_length h
    intro a ha
    exact List.of_mem_filter (this ▸ ha)
  · intro h
    rw [List.filter_eq_self.mpr h]

/-- C4: with the wave active and the spawn counters consistent with the
schedule (`zombiesSpawned` counts the spawned-marked entries,
`totalZombiesInWave` the schedule length), `isWaveComplete` returns true
— and clears `waveActive` — exactly when every scheduled entry has been
spawned and no zombie entity in the world remains active; whenever it
returns false the wave state is untouched (so it stays false while any
spawn is unfired or any spawned attacker is still active). -/
theorem isWaveComplete_exact :
    ∀ (s : WaveState) (world : List ZombieEnt),
      s.waveActive = true →
      s.zombiesSpawned = (s.spawnTimers.filter (·.spawned)).length →
      s.totalZombiesInWave = s.spawnTimers.length →
      ((isWaveComplete s world).1 = true ↔
        ((∀ t ∈ s.spawnTimers, t.spawned = true) ∧ ∀ z ∈ world, z.active = false))
      ∧ ((isWaveComplete s world).1 = true →
          (isWaveComplete s world).2.waveActive = false)
      ∧ ((isWaveComplete s world).1 = false → (isWaveComplete s world).2 = s) := by
  intro s world hact hspawned htotal
  have hallSpawned : s.totalZombiesInWave ≤ s.zombiesSpawned
      ↔ ∀ t ∈ s.spawnTimers, t.spawned = true := by
    rw [hspawned, htotal]
    constructor
    · intro h
      exact (filter_length_eq_iff_all (·.spawned) s.spawnTimers).mp
        (le_antisymm (List.length_filter_le _ _) h)
    · intro h
      exact le_of_eq ((filter_length_eq_iff_all (·.spawned) s.spawnTimers).mpr h).symm
  have hremaining : (world.filter (·.active)).length = 0
      ↔ ∀ z ∈ world, z.active = false := by
    rw [List.length_eq_zero, List.filter_eq_nil_iff]
    constructor
    · intro h z hz
      simpa using h z hz
    · intro h z hz
      simp [h z hz]
  by_cases hcond : s.totalZombiesInWave ≤ s.zombiesSpawned
      ∧ (world.filter (·.active)).length = 0
  · have hres : isWaveComplete s world = (true, { s with waveActive := false }) := by
      simp [isWaveComplete, hact, ge_iff_le, hcond.1, hcond.2]
    rw [hres]
    exact ⟨⟨fun _ => ⟨hallSpawned.mp hcond.1, hremaining.mp hcond.2⟩, fun _ => rfl⟩,
      fun _ => rfl, fun h => absurd h (by simp)⟩
  · have hres : isWaveComplete s world = (false, s) := by
      rcases not_and_or.mp hcond with h | h
      · simp [isWaveComplete, hact, ge_iff_le, h]
      · simp [isWaveComplete, hact, ge_iff_le, h]
    rw [hres]
    refine ⟨⟨fun h => absurd h (by simp), ?_⟩, fun h => absurd h (by simp),
      fun _ => rfl⟩
    intro ⟨ht, hz⟩
    exact absurd ⟨hallSpawned.mpr ht, hremaining.mpr hz⟩ hcond

/-- Witness for `isWaveComplete_exact`: an active wave whose single
schedule entry is spawned, with one dead (inactive) zombie entity in the
world, reports complete and clears the flag. -/
theorem isWaveComplete_exact_witness :
    ((WaveState.mk 1 0 true [⟨"basic", 2000, true⟩] 1 1 false).waveActive = true
      ∧ (WaveState.mk 1 0 true [⟨"basic", 2000, true⟩] 1 1 false).zombiesSpawned
          = (([⟨"basic", 2000, true⟩] : List SpawnTimer).filter (·.spawned)).length
      ∧ (WaveState.mk 1 0 true [⟨"basic", 2000, true⟩] 1 1 false).totalZombiesInWave
          = ([⟨"basic", 2000, true⟩] : List SpawnTimer).length)
    ∧ ((isWaveComplete ⟨1, 0, true, [⟨"basic", 2000, true⟩], 1, 1, false⟩
          [⟨false, 0, 200, "die"⟩]).1 = true ↔
        ((∀ t ∈ ([⟨"basic", 2000, true⟩] : List SpawnTimer), t.spawned = true)
          ∧ ∀ z ∈ ([⟨false, 0, 200, "die"⟩] : List ZombieEnt), z.active = false)) :=
  ⟨⟨by decide, by decide, by decide⟩,
    (isWaveComplete_exact ⟨1, 0, true, [⟨"basic", 2000, true⟩], 1, 1, false⟩
      [⟨false, 0, 200, "die"⟩] (by decide) (by decide) (by decide)).1⟩

/-! ### Ranged fire -/

/-- C7: with no active attacker beyond the shooter's position in its
lane, `updateShooters` fires nothing and leaves `lastShot` untouched no
matter how much cooldown has elapsed; with a target present, nothing
happens until `elapsedTime*1000 - lastShot >= fireRate`; on a fire
attempt `lastShot` is stamped and a projectile entity is created exactly
when the pool still has a free handle (pool exhaustion silently no-ops
the projectile creation). -/
theorem shooter_fire_discipline :
    ∀ (sh : Shooter) (plantX plantZ : ℚ) (row : ℤ) (zombies : List ZombieView)
      (elapsedTime : ℚ) (poolFree : ℕ),
      (hasTarget zombies row plantX = false →
        updateShooterPlant sh plantX plantZ row zombies elapsedTime poolFree
          = (sh, none, poolFree))
      ∧ (hasTarget zombies row plantX = true →
          elapsedTime * 1000 - sh.lastShot < sh.fireRate →
          updateShooterPlant sh plantX plantZ row zombies elapsedTime poolFree
            = (sh, none, poolFree))
      ∧ (hasTarget zombies row plantX = true →
          sh.fireRate ≤ elapsedTime * 1000 - sh.lastShot →
          (updateShooterPlant sh plantX plantZ row zombies
              elapsedTime poolFree).1.lastShot = elapsedTime * 1000
          ∧ ((updateShooterPlant sh plantX plantZ row zombies
              elapsedTime poolFree).2.1 = none ↔ poolFree = 0)) := by
  intro sh plantX plantZ row zombies elapsedTime poolFree
  refine ⟨fun hT => ?_, fun hT hcool => ?_, fun hT hcool => ?_⟩
  · simp [updateShooterPlant, hT]
  · simp [updateShooterPlant, hT, not_le.mpr hcool]
  · have hfire : sh.fireRate ≤ elapsedTime * 1000 - sh.lastShot := hcool
    by_cases hpool : poolFree = 0
    · simp [updateShooterPlant, hT, ge_iff_le, hfire, fireProjectile, hpool]
    · simp [updateShooterPlant, hT, ge_iff_le, hfire, fireProjectile, hpool]

/-- Witness for `shooter_fire_discipline`: a peashooter (fire rate 1400
ms, damage 20) at `x = 0` in row 2 with an active zombie ahead at
`x = 5` in the same row, elapsed time 2 s, last shot at 0, and 50 free
pool handles: the cooldown has elapsed, so `lastShot` is stamped to 2000
and a projectile is created. -/
theorem shooter_fire_discipline_witness :
    hasTarget [⟨true, 2, 5⟩] 2 0 = true
    ∧ (2 : ℚ) * 1000 - (Shooter.mk 1400 20 0).lastShot ≥ (Shooter.mk 1400 20 0).fireRate
    ∧ ((updateShooterPlant ⟨1400, 20, 0⟩ 0 0 2 [⟨true, 2, 5⟩] 2 50).1.lastShot
          = (2 : ℚ) * 1000
        ∧ ((updateShooterPlant ⟨1400, 20, 0⟩ 0 0 2 [⟨true, 2, 5⟩] 2 50).2.1 = none
            ↔ (50 : ℕ) = 0)) :=
  ⟨by decide, by norm_num,
    (shooter_fire_discipline ⟨1400, 20, 0⟩ 0 0 2 [⟨true, 2, 5⟩] 2 50).2.2
      (by decide) (by norm_num)⟩

/-! ### Pausing and the time sources -/

/-- C8 counterexample: the wave schedule comparison does not use the
scale-respecting time source.  Concretely, start the scenario wave at
wall-clock 0 (first spawn due at 2000 ms), pause (`timeScale = 0`), and
run one tick at wall-clock 3000 ms: the scaled clock is frozen
(`elapsedTime` still 0, `timeScale` still 0), yet `WaveManager.update`
at the same instant — it reads `performance.now() - waveStartTime`,
ignoring the scaled source — fires the spawns due at 2000 and 3000 ms.
(The running game masks this only by skipping the wave update while
paused; the wall clock still accrues against the schedule.) -/
theorem paused_tick_still_spawns_counterexample :
    (timeTick (timePause ⟨0, 0, 0, 1, 0, 0⟩) 3000).timeScale = 0
    ∧ (timeTick (timePause ⟨0, 0, 0, 1, 0, 0⟩) 3000).elapsedTime = 0
    ∧ (waveManagerUpdate (startWave demoWaveTable none 0 initialWaveState).2
        3000).zombiesSpawned = 2 := by
  refine ⟨rfl, ?_, by decide⟩
  show (0 : ℚ) + min ((3000 - 0) / 1000) maxDelta * 0 = 0
  norm_num

lemma timeTicks_scale_zero (nows : List ℚ) :
    ∀ t : TimeState, t.timeScale = 0 →
      (timeTicks t nows).elapsedTime = t.elapsedTime
      ∧ (timeTicks t nows).timeScale = 0 := by
  induction nows with
  | nil => exact fun t h => ⟨rfl, h⟩
  | cons n rest ih =>
    intro t h
    have hstep : (timeTick t n).elapsedTime = t.elapsedTime := by
      simp [timeTick, h]
    have hscale : (timeTick t n).timeScale = 0 := by
      simp [timeTick, h]
    have hrest := ih (timeTick t n) hscale
    refine ⟨?_, hrest.2⟩
    calc (timeTicks t (n :: rest)).elapsedTime
        = (timeTicks (timeTick t n) rest).elapsedTime := rfl
      _ = (timeTick t n).elapsedTime := hrest.1
      _ = t.elapsedTime := hstep

/-- C8 (amended): the scaled time source `Time.elapsedTime` is frozen by
any run of ticks at time scale 0, so everything driven by it — shooter
cooldown checks and sun-production triggers — behaves identically before
and after such a run: no cooldown elapses and no production interval
elapses.  The wave spawn schedule, however, is compared against the
unscaled wall clock (`performance.now() - waveStartTime`), so its due
spawns fire on an update regardless of the time scale, as the
counterexample shows; pausing prevents them only because the paused game
skips the wave update. -/
theorem pause_freezes_scaled_time_source :
    ∀ (t : TimeState) (nows : List ℚ),
      t.timeScale = 0 →
      (timeTicks t nows).elapsedTime = t.elapsedTime
      ∧ (timeTicks t nows).timeScale = 0
      ∧ (∀ lastProduced interval : ℚ,
          sunProductionDue lastProduced interval (timeTicks t nows).elapsedTime
            = sunProductionDue lastProduced interval t.elapsedTime)
      ∧ (∀ (sh : Shooter) (px pz : ℚ) (row : ℤ) (zs : List ZombieView) (pool : ℕ),
          updateShooterPlant sh px pz row zs (timeTicks t nows).elapsedTime pool
            = updateShooterPlant sh px pz row zs t.elapsedTime pool) := by
  intro t nows h
  obtain ⟨helapsed, hscale⟩ := timeTicks_scale_zero nows t h
  exact ⟨helapsed, hscale,
    fun lastProduced interval => by rw [helapsed],
    fun sh px pz row zs pool => by rw [helapsed]⟩

/-- Witness for `pause_freezes_scaled_time_source`: a paused clock run
through two ticks keeps `elapsedTime` at 0. -/
theorem pause_freezes_scaled_time_source_witness :
    (TimeState.mk 0 0 0 0 0 0).timeScale = 0
    ∧ (timeTicks ⟨0, 0, 0, 0, 0, 0⟩ [1000, 2000]).elapsedTime
        = (TimeState.mk 0 0 0 0 0 0).elapsedTime :=
  ⟨rfl, (pause_freezes_scaled_time_source ⟨0, 0, 0, 0, 0, 0⟩ [1000, 2000] rfl).1⟩

end PvZ
